import Mathlib

/-!
Verification development for `misconfig-configschemavalidator` (src/main.py).

The program is a CLI tool that validates a JSON/YAML configuration file
against a JSON/YAML schema file.  This file gives a shallow embedding of
its components:

* `determine_file_type` — the Type Resolver (src/main.py lines 105-127),
  together with a faithful model `splitext` of `os.path.splitext`;
* `load_json` / `load_yaml` — the Document Loader (lines 31-81); the text
  level JSON parser `jsonParse` models CPython's strict `json.load`, and
  the YAML side models ruamel.yaml's safe loader at the composed-node
  level (`YamlNode`, `safeConstruct`) since lexing YAML text is outside
  the embedding — the scan/parse/compose phase is passed in as a
  `ComposeResult`-valued function;
* `validate_config` — the Schema Validator wrapper (lines 83-103), with
  the external `jsonschema.validate` collaborator abstracted as a
  function returning a `ValidateOutcome`;
* `mainRun` — the CLI driver (lines 129-182), instrumented with the list
  of pipeline steps it executed, and the exit code it produces.
-/

namespace ConfigSchemaValidator

/-- The two serialization formats the tool supports (`'json'` / `'yaml'`
strings in src/main.py). -/
inductive FileType
  | json
  | yaml
deriving DecidableEq, Repr

mutual

/-- Python runtime values that can come out of the two loaders.  The
`object` constructor stands for an arbitrary instantiated Python object —
what an *unsafe* YAML load could create from a custom tag; the safe
pipeline must never produce it.  Floats are kept symbolic (their source
lexeme) since floating point is not modelled.  Mapping keys are strings,
matching `json.load` (JSON object keys are always strings) and the
spec's DocumentTree (mapping from string to DocumentTree). -/
inductive PyValue
  | null
  | bool (b : Bool)
  | int (n : Int)
  | float (lexeme : String)
  | str (s : String)
  | list (items : PyValueList)
  | dict (entries : PyValueDict)
  | object (cls : String) (args : PyValueList)

/-- A list of `PyValue`s (mutual with `PyValue`). -/
inductive PyValueList
  | nil
  | cons (head : PyValue) (tail : PyValueList)

/-- String-keyed association entries of a `PyValue` mapping (mutual with
`PyValue`). -/
inductive PyValueDict
  | nil
  | cons (key : String) (val : PyValue) (tail : PyValueDict)

end

end ConfigSchemaValidator

namespace ConfigSchemaValidator

mutual

/-- `true` iff the value is built from the builtin scalar / sequence /
mapping constructors only — i.e. it contains no arbitrary instantiated
`object`. -/
def isBuiltin : PyValue → Bool
  | .object _ _ => false
  | .list items => listBuiltin items
  | .dict entries => dictBuiltin entries
  | .null => true
  | .bool _ => true
  | .int _ => true
  | .float _ => true
  | .str _ => true

/-- All members of the list are builtin. -/
def listBuiltin : PyValueList → Bool
  | .nil => true
  | .cons v rest => isBuiltin v && listBuiltin rest

/-- All values of the mapping are builtin. -/
def dictBuiltin : PyValueDict → Bool
  | .nil => true
  | .cons _ v rest => isBuiltin v && dictBuiltin rest

end

/-- The Python exceptions that escape the functions of src/main.py, as an
explicit error type (exception-based control flow mapped to `Except`). -/
inductive PyExc
  | fileNotFound (path : String)
  | jsonDecodeError (msg : String)
  | yamlScannerError (msg : String)
  | yamlParserError (msg : String)
  | yamlConstructorError (msg : String)
  | valueError (msg : String)
  | validationError (msg : String)
  | otherError (msg : String)
deriving DecidableEq, Repr

end ConfigSchemaValidator

namespace ConfigSchemaValidator

/-! The Type Resolver: `os.path.splitext` and `determine_file_type` -/

/-- Model of `posixpath.splitext` (the extension component, with the
root).  CPython takes the last `'.'` after the last `'/'` as the start of
the extension, except that the leading dots of the basename never start
an extension (so `".json"` and `"..json"` have no extension).  This is
computed here from the right end of the string: the basename is what
follows the last `'/'`; its extension starts at its last `'.'`, provided
some character of the basename before that dot is not itself a dot. -/
def splitext (p : String) : String × String :=
  let revAll := p.data.reverse
  let bRev := revAll.takeWhile (fun c => c ≠ '/')
  let dirRev := revAll.dropWhile (fun c => c ≠ '/')
  let extRev := bRev.takeWhile (fun c => c ≠ '.')
  match bRev.dropWhile (fun c => c ≠ '.') with
  | [] => (p, "")
  | _ :: beforeRev =>
    if beforeRev.any (fun c => c ≠ '.') then
      (⟨(beforeRev ++ dirRev).reverse⟩, ⟨'.' :: extRev.reverse⟩)
    else
      (p, "")

/-- ASCII lowering of one character, as `str.lower` behaves on the ASCII
range (the only range the tool's extensions use). -/
def charLower (c : Char) : Char :=
  if 'A' ≤ c ∧ c ≤ 'Z' then Char.ofNat (c.toNat + 32) else c

/-- Model of `str.lower` on the extension string. -/
def strLower (s : String) : String := ⟨s.data.map charLower⟩

/-- The `ValueError` message raised by `determine_file_type`; it carries
the offending path. -/
def unknownTypeMsg (p : String) : String :=
  "Could not determine file type for " ++ p ++
    ".  Specify with --config_type or --schema_type."

/-- `determine_file_type` (src/main.py lines 105-127): an explicit type
argument wins unconditionally; otherwise the lowercased extension decides
(`.json` → JSON, `.yaml`/`.yml` → YAML); anything else raises
`ValueError` with a message naming the path. -/
def determine_file_type (filePath : String) (argType : Option FileType) :
    Except PyExc FileType :=
  match argType with
  | some t => .ok t
  | none =>
    let ext := strLower (splitext filePath).2
    if ext = (".json") then .ok .json
    else if ext = (".yaml") ∨ ext = (".yml") then .ok .yaml
    else .error (.valueError (unknownTypeMsg filePath))

end ConfigSchemaValidator

namespace ConfigSchemaValidator

/-! The YAML safe loader (ruamel.yaml, `typ='safe'`)

`YAML(typ='safe').load` runs scan/parse/compose (text to a node tree with
resolved tags) and then the `SafeConstructor` (nodes to Python values).
Lexing YAML text is outside this embedding: the composed node tree is the
model's input.  The `SafeConstructor` dispatches on the node's tag and
builds only builtin Python values; any tag it has no constructor for
raises `ConstructorError` ("could not determine a constructor for the
tag ...").  Its integer constructor is modelled on the decimal subset
(optional sign and decimal digits); non-string mapping keys are modelled
as a constructor error, matching the spec's DocumentTree whose mappings
are keyed by strings. -/

mutual

/-- A composed YAML node: a scalar, sequence or mapping, each carrying
its resolved tag. -/
inductive YamlNode
  | scalar (tag : String) (value : String)
  | sequence (tag : String) (items : YamlNodeSeq)
  | mapping (tag : String) (entries : YamlNodeMap)

inductive YamlNodeSeq
  | nil
  | cons (head : YamlNode) (tail : YamlNodeSeq)

inductive YamlNodeMap
  | nil
  | cons (key : YamlNode) (val : YamlNode) (tail : YamlNodeMap)

end

def yamlNullTag : String := "tag:yaml.org,2002:null"

def yamlBoolTag : String := "tag:yaml.org,2002:bool"

def yamlIntTag : String := "tag:yaml.org,2002:int"

def yamlFloatTag : String := "tag:yaml.org,2002:float"

def yamlStrTag : String := "tag:yaml.org,2002:str"

def yamlSeqTag : String := "tag:yaml.org,2002:seq"

def yamlMapTag : String := "tag:yaml.org,2002:map"

/-- The tags of the core YAML schema, the only ones the safe constructor
knows a constructor for. -/
def coreTags : List String :=
  [yamlNullTag, yamlBoolTag, yamlIntTag, yamlFloatTag, yamlStrTag,
   yamlSeqTag, yamlMapTag]

/-- Message of ruamel's `ConstructorError` for a tag without a registered
constructor. -/
def constructorErrMsg (tag : String) : String :=
  "could not determine a constructor for the tag " ++ tag

/-- The boolean vocabulary of `SafeConstructor.construct_yaml_bool`
(YAML 1.1, as ruamel's safe constructor accepts). -/
def boolValue (v : String) : Option Bool :=
  if v = ("true") ∨ v = ("True") ∨ v = ("TRUE") ∨ v = ("yes") ∨
     v = ("Yes") ∨ v = ("YES") ∨ v = ("on") ∨ v = ("On") ∨ v = ("ON")
  then some true
  else if v = ("false") ∨ v = ("False") ∨ v = ("FALSE") ∨ v = ("no") ∨
          v = ("No") ∨ v = ("NO") ∨ v = ("off") ∨ v = ("Off") ∨
          v = ("OFF")
  then some false
  else none

/-- A decimal digit character to its value (code point 48 is `'0'`). -/
def charDigit (c : Char) : Option Nat :=
  if '0' ≤ c ∧ c ≤ '9' then some (c.toNat - 48) else none

/-- A digit value to its character (values below ten only). -/
def digitChar : Nat → Char
  | 0 => '0'
  | 1 => '1'
  | 2 => '2'
  | 3 => '3'
  | 4 => '4'
  | 5 => '5'
  | 6 => '6'
  | 7 => '7'
  | 8 => '8'
  | 9 => '9'
  | _ => '*'

/-- Value of a big-endian run of decimal digit characters; `none` if the
run is empty or holds a non-digit. -/
def parseNatDigits (cs : List Char) : Option Nat :=
  if cs = [] then none
  else if cs.all (fun c => (charDigit c).isSome) then
    some (cs.foldl (fun a c => a * 10 + (charDigit c).getD 0) 0)
  else none

/-- The decimal subset of `SafeConstructor.construct_yaml_int`: an
optional sign followed by decimal digits. -/
def parseYamlInt (s : String) : Option Int :=
  match s.data with
  | [] => none
  | c :: rest =>
    if c = '-' then (parseNatDigits rest).map (fun n => -(n : Int))
    else if c = '+' then (parseNatDigits rest).map (fun n => (n : Int))
    else (parseNatDigits (c :: rest)).map (fun n => (n : Int))

/-- The scalar constructors of ruamel's `SafeConstructor`: dispatch on
the resolved tag; only the scalar core-schema tags have constructors, and
they build only builtin scalars.  Every other tag is a
`ConstructorError`. -/
def constructScalar (tag v : String) : Except String PyValue :=
  if tag = yamlNullTag then .ok .null
  else if tag = yamlBoolTag then
    match boolValue v with
    | some b => .ok (.bool b)
    | none => .error ("invalid boolean value " ++ v)
  else if tag = yamlIntTag then
    match parseYamlInt v with
    | some n => .ok (.int n)
    | none => .error ("invalid integer value " ++ v)
  else if tag = yamlFloatTag then .ok (.float v)
  else if tag = yamlStrTag then .ok (.str v)
  else .error (constructorErrMsg tag)

mutual

/-- ruamel's `SafeConstructor`: dispatch on the resolved tag; only the
core-schema tags have constructors, and they build only builtin values.
Every other tag is a `ConstructorError`. -/
def safeConstruct : YamlNode → Except String PyValue
  | .scalar tag v => constructScalar tag v
  | .sequence tag items =>
    if tag = yamlSeqTag then
      match constructSeq items with
      | .ok vs => .ok (.list vs)
      | .error m => .error m
    else .error (constructorErrMsg tag)
  | .mapping tag entries =>
    if tag = yamlMapTag then
      match constructMap entries with
      | .ok es => .ok (.dict es)
      | .error m => .error m
    else .error (constructorErrMsg tag)

/-- Construct every element of a sequence node. -/
def constructSeq : YamlNodeSeq → Except String PyValueList
  | .nil => .ok .nil
  | .cons n rest =>
    match safeConstruct n with
    | .error m => .error m
    | .ok v =>
      match constructSeq rest with
      | .error m => .error m
      | .ok vs => .ok (.cons v vs)

/-- Construct every entry of a mapping node; keys must construct to
strings. -/
def constructMap : YamlNodeMap → Except String PyValueDict
  | .nil => .ok .nil
  | .cons k v rest =>
    match safeConstruct k with
    | .error m => .error m
    | .ok (.str ks) =>
      match safeConstruct v with
      | .error m => .error m
      | .ok vv =>
        match constructMap rest with
        | .error m => .error m
        | .ok es => .ok (.cons ks vv es)
    | .ok _ => .error ("non-string mapping key")

end

/-- `true` iff the tag is one of the core YAML schema tags. -/
def isCoreTag (tag : String) : Bool :=
  tag = yamlNullTag || tag = yamlBoolTag || tag = yamlIntTag ||
    tag = yamlFloatTag || tag = yamlStrTag || tag = yamlSeqTag ||
    tag = yamlMapTag

mutual

/-- `true` iff the node tree carries, anywhere, a tag outside the core
YAML schema — i.e. a custom / unsafe type tag. -/
def hasCustomTag : YamlNode → Bool
  | .scalar tag _ => !(isCoreTag tag)
  | .sequence tag items => !(isCoreTag tag) || seqHasCustomTag items
  | .mapping tag entries => !(isCoreTag tag) || mapHasCustomTag entries

def seqHasCustomTag : YamlNodeSeq → Bool
  | .nil => false
  | .cons n rest => hasCustomTag n || seqHasCustomTag rest

def mapHasCustomTag : YamlNodeMap → Bool
  | .nil => false
  | .cons k v rest => hasCustomTag k || hasCustomTag v || mapHasCustomTag rest

end

/-- Outcome of ruamel's scan/parse/compose phase on a text: a scanner
(lexical) error, a parser (structural) error, or a composed document
(`none` for an empty stream). -/
inductive ComposeResult
  | scanErr (msg : String)
  | parseErr (msg : String)
  | composed (root : Option YamlNode)

end ConfigSchemaValidator

namespace ConfigSchemaValidator

/-! The JSON branch: a model of CPython's strict `json.load` -/

/-- JSON whitespace (`' '`, tab, newline, carriage return). -/
def isJsonWs (c : Char) : Bool :=
  c = ' ' || c = '\t' || c = '\n' || c = '\r'

def jsonSkipWs (cs : List Char) : List Char := cs.dropWhile isJsonWs

/-- Hexadecimal digit value (code points 97 and 65 are `'a'` and
`'A'`). -/
def jsonHexVal (c : Char) : Option Nat :=
  if 'a' ≤ c ∧ c ≤ 'f' then some (c.toNat - 87)
  else if 'A' ≤ c ∧ c ≤ 'F' then some (c.toNat - 55)
  else charDigit c

/-- One-character JSON string escapes. -/
def jsonEscape : Char → Option Char
  | '"' => some '"'
  | '\\' => some '\\'
  | '/' => some '/'
  | 'b' => some (Char.ofNat 8)
  | 'f' => some (Char.ofNat 12)
  | 'n' => some '\n'
  | 'r' => some '\r'
  | 't' => some '\t'
  | _ => none

/-- Body of a JSON string literal, after the opening quote.  Strict mode:
raw control characters are rejected.  (Unicode escapes become the code
point directly; surrogate pairing is not modelled.) -/
def jsonStringRest : List Char → List Char → Except String (String × List Char)
  | _, [] => .error ("Unterminated string")
  | acc, '"' :: rest => .ok (⟨acc.reverse⟩, rest)
  | acc, '\\' :: 'u' :: a :: b :: c :: d :: rest =>
    match jsonHexVal a, jsonHexVal b, jsonHexVal c, jsonHexVal d with
    | some ha, some hb, some hc, some hd =>
      jsonStringRest (Char.ofNat (((ha * 16 + hb) * 16 + hc) * 16 + hd) :: acc) rest
    | _, _, _, _ => .error ("Invalid hex escape")
  | acc, '\\' :: e :: rest =>
    match jsonEscape e with
    | some c2 => jsonStringRest (c2 :: acc) rest
    | none => .error ("Invalid escape")
  | _, '\\' :: [] => .error ("Unterminated string")
  | acc, c :: rest =>
    if c.toNat < 32 then .error ("Invalid control character")
    else jsonStringRest (c :: acc) rest

/-- Split off a run of decimal digits. -/
def digitSpan (cs : List Char) : List Char × List Char :=
  (cs.takeWhile (fun c => (charDigit c).isSome),
   cs.dropWhile (fun c => (charDigit c).isSome))

/-- Optional fraction and exponent after the integer digits of a JSON
number. -/
def jsonNumberTail (neg : Bool) (intDigits : List Char) (rest : List Char) :
    Except String (PyValue × List Char) :=
  let (fracChars, restF) :=
    match rest with
    | '.' :: r2 =>
      match digitSpan r2 with
      | ([], _) => (([] : List Char), rest)
      | (ds, r3) => ('.' :: ds, r3)
    | _ => ([], rest)
  let (expChars, restE) :=
    match restF with
    | e :: r2 =>
      if e = 'e' ∨ e = 'E' then
        match r2 with
        | s :: r3 =>
          if s = '+' ∨ s = '-' then
            match digitSpan r3 with
            | ([], _) => (([] : List Char), restF)
            | (ds, r4) => (e :: s :: ds, r4)
          else
            match digitSpan r2 with
            | ([], _) => (([] : List Char), restF)
            | (ds, r4) => (e :: ds, r4)
        | [] => ([], restF)
      else ([], restF)
    | [] => ([], restF)
  if fracChars = [] ∧ expChars = [] then
    let n : Nat := intDigits.foldl (fun a c => a * 10 + (charDigit c).getD 0) 0
    .ok (.int (if neg then -(n : Int) else (n : Int)), restE)
  else
    let lexeme : List Char :=
      (if neg then ['-'] else []) ++ intDigits ++ fracChars ++ expChars
    .ok (.float ⟨lexeme⟩, restE)

/-- A JSON number, per CPython's `NUMBER_RE`:
`-?(0|[1-9][0-9]*)(\.[0-9]+)?([eE][-+]?[0-9]+)?`.  Without a fraction or
exponent it is an `int`; otherwise a `float`, kept as its lexeme. -/
def jsonParseNumber (cs : List Char) : Except String (PyValue × List Char) :=
  let (neg, cs1) :=
    match cs with
    | '-' :: rest => (true, rest)
    | _ => (false, cs)
  match cs1 with
  | '0' :: rest1 => jsonNumberTail neg ['0'] rest1
  | c :: rest1 =>
    match charDigit c with
    | some d =>
      if d = 0 then .error ("Expecting value")
      else
        let (ds, rest2) := digitSpan rest1
        jsonNumberTail neg (c :: ds) rest2
    | none => .error ("Expecting value")
  | [] => .error ("Expecting value")

mutual

/-- One JSON value, leading whitespace allowed; returns the value and the
unconsumed rest.  Fuel bounds the nesting recursion. -/
def jsonParseVal : Nat → List Char → Except String (PyValue × List Char)
  | 0, _ => .error ("Expecting value")
  | fuel + 1, cs =>
    match jsonSkipWs cs with
    | [] => .error ("Expecting value")
    | '{' :: rest =>
      match jsonSkipWs rest with
      | '}' :: r2 => .ok (.dict .nil, r2)
      | cs2 =>
        match jsonParseMembers fuel cs2 with
        | .ok (es, r2) => .ok (.dict es, r2)
        | .error m => .error m
    | '[' :: rest =>
      match jsonSkipWs rest with
      | ']' :: r2 => .ok (.list .nil, r2)
      | cs2 =>
        match jsonParseItems fuel cs2 with
        | .ok (vs, r2) => .ok (.list vs, r2)
        | .error m => .error m
    | '"' :: rest =>
      match jsonStringRest [] rest with
      | .ok (s, r2) => .ok (.str s, r2)
      | .error m => .error m
    | 't' :: 'r' :: 'u' :: 'e' :: rest => .ok (.bool true, rest)
    | 'f' :: 'a' :: 'l' :: 's' :: 'e' :: rest => .ok (.bool false, rest)
    | 'n' :: 'u' :: 'l' :: 'l' :: rest => .ok (.null, rest)
    | 'N' :: 'a' :: 'N' :: rest => .ok (.float ("NaN"), rest)
    | 'I' :: 'n' :: 'f' :: 'i' :: 'n' :: 'i' :: 't' :: 'y' :: rest =>
      .ok (.float ("Infinity"), rest)
    | '-' :: 'I' :: 'n' :: 'f' :: 'i' :: 'n' :: 'i' :: 't' :: 'y' :: rest =>
      .ok (.float ("-Infinity"), rest)
    | c :: rest =>
      if c = '-' ∨ (charDigit c).isSome then jsonParseNumber (c :: rest)
      else .error ("Expecting value")

/-- Elements of a non-empty array, positioned at the first element. -/
def jsonParseItems : Nat → List Char → Except String (PyValueList × List Char)
  | 0, _ => .error ("Expecting value")
  | fuel + 1, cs =>
    match jsonParseVal fuel cs with
    | .error m => .error m
    | .ok (v, rest) =>
      match jsonSkipWs rest with
      | ']' :: r2 => .ok (.cons v .nil, r2)
      | ',' :: r2 =>
        match jsonParseItems fuel r2 with
        | .ok (vs, r3) => .ok (.cons v vs, r3)
        | .error m => .error m
      | _ => .error ("Expecting comma delimiter")

/-- Members of a non-empty object, positioned at the first key. -/
def jsonParseMembers : Nat → List Char → Except String (PyValueDict × List Char)
  | 0, _ => .error ("Expecting value")
  | fuel + 1, cs =>
    match cs with
    | '"' :: rest =>
      match jsonStringRest [] rest with
      | .error m => .error m
      | .ok (k, r2) =>
        match jsonSkipWs r2 with
        | ':' :: r3 =>
          match jsonParseVal fuel r3 with
          | .error m => .error m
          | .ok (v, r4) =>
            match jsonSkipWs r4 with
            | '}' :: r5 => .ok (.cons k v .nil, r5)
            | ',' :: r5 =>
              match jsonParseMembers fuel (jsonSkipWs r5) with
              | .ok (es, r6) => .ok (.cons k v es, r6)
              | .error m => .error m
            | _ => .error ("Expecting comma delimiter")
        | _ => .error ("Expecting colon delimiter")
    | _ => .error ("Expecting property name enclosed in double quotes")

end

/-- `json.loads`: one JSON value, then only whitespace to the end. -/
def jsonParse (s : String) : Except String PyValue :=
  match jsonParseVal (2 * s.length + 8) s.data with
  | .error m => .error m
  | .ok (v, rest) =>
    match jsonSkipWs rest with
    | [] => .ok v
    | _ => .error ("Extra data")

end ConfigSchemaValidator

namespace ConfigSchemaValidator

/-! The Document Loader (src/main.py lines 31-81)

The filesystem is an explicit map from path to contents (`none` = the
file cannot be opened).  `load_yaml`'s scan/parse/compose phase is
abstracted as a function from the file's text to a `ComposeResult`. -/

/-- `load_json` (lines 31-54): open the file, parse with `json.load`.
`FileNotFoundError` and `json.JSONDecodeError` are logged and re-raised
unchanged. -/
def load_json (fs : String → Option String) (path : String) :
    Except PyExc PyValue :=
  match fs path with
  | none => .error (.fileNotFound path)
  | some text =>
    match jsonParse text with
    | .error m => .error (.jsonDecodeError m)
    | .ok v => .ok v

/-- `load_yaml` (lines 56-81): open the file, load with
`YAML(typ='safe')`.  `FileNotFoundError`, `ParserError` and
`ScannerError` are logged and re-raised unchanged; an empty stream loads
as `None`; a `ConstructorError` from the safe constructor is *not*
caught by the `except (ParserError, ScannerError)` clause and propagates
unchanged. -/
def load_yaml (fs : String → Option String)
    (compose : String → ComposeResult) (path : String) :
    Except PyExc PyValue :=
  match fs path with
  | none => .error (.fileNotFound path)
  | some text =>
    match compose text with
    | .scanErr m => .error (.yamlScannerError m)
    | .parseErr m => .error (.yamlParserError m)
    | .composed none => .ok .null
    | .composed (some n) =>
      match safeConstruct n with
      | .error m => .error (.yamlConstructorError m)
      | .ok v => .ok v

/-! The Schema Validator wrapper (src/main.py lines 83-103) -/

/-- Outcome of the external `jsonschema.validate(instance, schema)`
call: success, a `ValidationError`, or any other exception (e.g. a
`SchemaError` for a malformed schema). -/
inductive ValidateOutcome
  | valid
  | invalid (msg : String)
  | raised (msg : String)
deriving DecidableEq, Repr

/-- `validate_config` (lines 83-103): delegate to `jsonschema.validate`;
on success return `True`; a `ValidationError` is logged and re-raised;
any other exception propagates unchanged. -/
def validate_config (jsValidate : PyValue → PyValue → ValidateOutcome)
    (config_data schema_data : PyValue) : Except PyExc Bool :=
  match jsValidate config_data schema_data with
  | .valid => .ok true
  | .invalid m => .error (.validationError m)
  | .raised m => .error (.otherError m)

/-- The explicit-state reading of `validate_config`: the body only reads
`config_data` and `schema_data` (it passes them to the external
evaluator, modelled as the pure function `jsValidate` since the spec
requires the collaborator not to mutate its inputs) and never reassigns
or updates either, so the two trees after the call are the two trees
before it. -/
def validate_config_state (jsValidate : PyValue → PyValue → ValidateOutcome)
    (config_data schema_data : PyValue) :
    Except PyExc Bool × PyValue × PyValue :=
  (validate_config jsValidate config_data schema_data,
   config_data, schema_data)

/-! The CLI driver (src/main.py lines 129-182) -/

/-- The parsed command line (after `argparse` has accepted it). -/
structure Args where
  config_file : String
  schema_file : String
  config_type : Option FileType
  schema_type : Option FileType
deriving DecidableEq, Repr

/-- The pipeline steps of the spec's state machine. -/
inductive Step
  | resolveTypes
  | loadConfig
  | loadSchema
  | validate
deriving DecidableEq, Repr

/-- The canonical step order of the spec's state machine. -/
def canonicalSteps : List Step :=
  [.resolveTypes, .loadConfig, .loadSchema, .validate]

/-- Result of one `main` run: the process exit code, the pipeline steps
that began executing, in order, and the exception that drove the failure
path (if any). -/
structure RunResult where
  exitCode : Nat
  trace : List Step
  err : Option PyExc
deriving DecidableEq, Repr

/-- Dispatch on the resolved type, as `main` does with its
`if config_type == 'json' ... elif ... == 'yaml'` chains (the `else`
branches are unreachable: `determine_file_type` only returns these two
strings). -/
def loadAs (t : FileType) (fs : String → Option String)
    (compose : String → ComposeResult) (path : String) :
    Except PyExc PyValue :=
  match t with
  | .json => load_json fs path
  | .yaml => load_yaml fs compose path

/-- `main` (lines 129-182): resolve both file types (a `ValueError` is
caught on the spot, logged, exit 1), load the config, load the schema,
validate; every exception listed in the outer `try/except` — and the
catch-all `except Exception` — maps to `sys.exit(1)`; only the
`validate_config` success path reaches `sys.exit(0)`. -/
def mainRun (args : Args) (fs : String → Option String)
    (compose : String → ComposeResult)
    (jsValidate : PyValue → PyValue → ValidateOutcome) : RunResult :=
  match determine_file_type args.config_file args.config_type with
  | .error e => ⟨1, [.resolveTypes], some e⟩
  | .ok config_type =>
    match determine_file_type args.schema_file args.schema_type with
    | .error e => ⟨1, [.resolveTypes], some e⟩
    | .ok schema_type =>
      match loadAs config_type fs compose args.config_file with
      | .error e => ⟨1, [.resolveTypes, .loadConfig], some e⟩
      | .ok config_data =>
        match loadAs schema_type fs compose args.schema_file with
        | .error e => ⟨1, [.resolveTypes, .loadConfig, .loadSchema], some e⟩
        | .ok schema_data =>
          match validate_config jsValidate config_data schema_data with
          | .error e =>
            ⟨1, [.resolveTypes, .loadConfig, .loadSchema, .validate], some e⟩
          | .ok _ =>
            ⟨0, [.resolveTypes, .loadConfig, .loadSchema, .validate], none⟩

/-- Specification-side definition, following the spec's words: "the
configuration is valid against the schema" — both file types resolve,
both documents load, and the external JSON-Schema evaluator accepts the
configuration against the schema. -/
def configurationIsValid (args : Args) (fs : String → Option String)
    (compose : String → ComposeResult)
    (jsValidate : PyValue → PyValue → ValidateOutcome) : Bool :=
  match determine_file_type args.config_file args.config_type with
  | .error _ => false
  | .ok ct =>
    match determine_file_type args.schema_file args.schema_type with
    | .error _ => false
    | .ok st =>
      match loadAs ct fs compose args.config_file with
      | .error _ => false
      | .ok c =>
        match loadAs st fs compose args.schema_file with
        | .error _ => false
        | .ok s =>
          match jsValidate c s with
          | .valid => true
          | .invalid _ => false
          | .raised _ => false

/-- Which error kinds belong to which pipeline step (the "corresponding
error kind" of the spec's state machine). -/
def errAllowed : Step → PyExc → Bool
  | .resolveTypes, .valueError _ => true
  | .loadConfig, .fileNotFound _ => true
  | .loadConfig, .jsonDecodeError _ => true
  | .loadConfig, .yamlScannerError _ => true
  | .loadConfig, .yamlParserError _ => true
  | .loadConfig, .yamlConstructorError _ => true
  | .loadSchema, .fileNotFound _ => true
  | .loadSchema, .jsonDecodeError _ => true
  | .loadSchema, .yamlScannerError _ => true
  | .loadSchema, .yamlParserError _ => true
  | .loadSchema, .yamlConstructorError _ => true
  | .validate, .validationError _ => true
  | .validate, .otherError _ => true
  | _, _ => false

end ConfigSchemaValidator

namespace ConfigSchemaValidator

/-! Decimal rendering of integers, and the canonical YAML
presentation of a builtin value (for the format-equivalence claims) -/

/-- Little-endian decimal digits of a natural number (fuel-bounded; a
fuel of `n` suffices for `n`). -/
def natDigitsRev (fuel n : Nat) : List Nat :=
  match fuel with
  | 0 => []
  | f + 1 => if n = 0 then [] else n % 10 :: natDigitsRev f (n / 10)

/-- Value of a little-endian digit list. -/
def ofDigitsRev : List Nat → Nat
  | [] => 0
  | d :: ds => d + 10 * ofDigitsRev ds

/-- Decimal rendering of a natural number (as `str(int)` renders a
non-negative value). -/
def natRepr (n : Nat) : String :=
  if n = 0 then ("0") else ⟨((natDigitsRev n n).map digitChar).reverse⟩

/-- Decimal rendering of an integer. -/
def intRepr (i : Int) : String :=
  if i < 0 then ("-") ++ natRepr i.natAbs else natRepr i.natAbs

mutual

/-- The canonical YAML document with the same logical content as a
builtin value: each scalar / sequence / mapping rendered with its core
YAML tag (as YAML's representation of JSON-expressible content).  The
`object` case is irrelevant (only builtin values are presented). -/
def toYamlNode : PyValue → YamlNode
  | .null => .scalar yamlNullTag ("null")
  | .bool true => .scalar yamlBoolTag ("true")
  | .bool false => .scalar yamlBoolTag ("false")
  | .int n => .scalar yamlIntTag (intRepr n)
  | .float lexeme => .scalar yamlFloatTag lexeme
  | .str s => .scalar yamlStrTag s
  | .list items => .sequence yamlSeqTag (toYamlSeq items)
  | .dict entries => .mapping yamlMapTag (toYamlMap entries)
  | .object _ _ => .scalar ("!object") ("")

def toYamlSeq : PyValueList → YamlNodeSeq
  | .nil => .nil
  | .cons v rest => .cons (toYamlNode v) (toYamlSeq rest)

def toYamlMap : PyValueDict → YamlNodeMap
  | .nil => .nil
  | .cons k v rest =>
    .cons (.scalar yamlStrTag k) (toYamlNode v) (toYamlMap rest)

end

end ConfigSchemaValidator

namespace ConfigSchemaValidator

/-! Helper lemmas: decimal digits and list scanning -/

theorem charDigit_digitChar {d : Nat} (h : d < 10) :
    charDigit (digitChar d) = some d := by
  interval_cases d <;> rfl

theorem natDigitsRev_spec :
    ∀ fuel n, n ≤ fuel →
      (∀ d ∈ natDigitsRev fuel n, d < 10) ∧
        ofDigitsRev (natDigitsRev fuel n) = n ∧
        (n ≠ 0 → natDigitsRev fuel n ≠ []) := by
  intro fuel
  induction fuel with
  | zero =>
    intro n hn
    interval_cases n
    simp [natDigitsRev, ofDigitsRev]
  | succ f ih =>
    intro n hn
    by_cases h0 : n = 0
    · subst h0
      simp [natDigitsRev, ofDigitsRev]
    · have hdiv : n / 10 ≤ f := by
        have h1 : n / 10 < n := Nat.div_lt_self (Nat.pos_of_ne_zero h0) (by norm_num)
        omega
      obtain ⟨ha, hb, _⟩ := ih (n / 10) hdiv
      refine ⟨?_, ?_, ?_⟩
      · intro d hd
        simp only [natDigitsRev, h0, if_false, List.mem_cons] at hd
        rcases hd with h | h
        · subst h
          exact Nat.mod_lt n (by norm_num)
        · exact ha d h
      · simp only [natDigitsRev, h0, if_false, ofDigitsRev, hb]
        exact Nat.mod_add_div n 10
      · intro _
        simp [natDigitsRev, h0]

theorem foldl_digitChar (l : List Nat) (hl : ∀ d ∈ l, d < 10) :
    ∀ a : Nat,
      ((l.map digitChar).reverse).foldl (fun a c => a * 10 + (charDigit c).getD 0) a
        = a * 10 ^ l.length + ofDigitsRev l := by
  induction l with
  | nil =>
    intro a
    simp [ofDigitsRev]
  | cons d ds ih =>
    intro a
    have hd : d < 10 := hl d (by simp)
    have hds : ∀ x ∈ ds, x < 10 := fun x hx => hl x (by simp [hx])
    simp only [List.map_cons, List.reverse_cons, List.foldl_append, List.foldl_cons,
      List.foldl_nil]
    rw [ih hds a, charDigit_digitChar hd]
    simp only [Option.getD_some, ofDigitsRev, List.length_cons, pow_succ]
    ring

theorem all_isSome_digits (l : List Nat) (hl : ∀ d ∈ l, d < 10) :
    ((l.map digitChar).reverse).all (fun c => (charDigit c).isSome) = true := by
  rw [List.all_eq_true]
  intro c hc
  rw [List.mem_reverse, List.mem_map] at hc
  obtain ⟨d, hd, rfl⟩ := hc
  rw [charDigit_digitChar (hl d hd)]
  rfl

theorem parseNatDigits_natRepr (n : Nat) :
    parseNatDigits (natRepr n).data = some n := by
  by_cases h0 : n = 0
  · subst h0
    rfl
  · obtain ⟨ha, hb, hc⟩ := natDigitsRev_spec n n (le_refl n)
    have hdata : (natRepr n).data = ((natDigitsRev n n).map digitChar).reverse := by
      unfold natRepr
      rw [if_neg h0]
    have hne : ((natDigitsRev n n).map digitChar).reverse ≠ [] := by
      intro heq
      apply hc h0
      have := List.reverse_eq_nil_iff.mp heq
      exact List.map_eq_nil_iff.mp this
    rw [hdata]
    unfold parseNatDigits
    rw [if_neg hne, if_pos (all_isSome_digits _ ha)]
    rw [foldl_digitChar _ ha 0]
    simp [hb]

end ConfigSchemaValidator

namespace ConfigSchemaValidator

theorem parseYamlInt_natRepr (m : Nat) :
    parseYamlInt (natRepr m) = some (m : Int) := by
  have hd := parseNatDigits_natRepr m
  cases hdata : (natRepr m).data with
  | nil =>
    rw [hdata] at hd
    simp [parseNatDigits] at hd
  | cons c rest =>
    rw [hdata] at hd
    have hsome : (charDigit c).isSome = true := by
      unfold parseNatDigits at hd
      by_cases hall : (c :: rest).all (fun c => (charDigit c).isSome) = true
      · exact List.all_eq_true.mp hall c (by simp)
      · simp [hall] at hd
    have hcm : c ≠ '-' := by
      intro h
      rw [h] at hsome
      exact absurd hsome (by decide)
    have hcp : c ≠ '+' := by
      intro h
      rw [h] at hsome
      exact absurd hsome (by decide)
    unfold parseYamlInt
    rw [hdata]
    simp only [if_neg hcm, if_neg hcp, hd]
    simp

theorem parseYamlInt_intRepr (i : Int) :
    parseYamlInt (intRepr i) = some i := by
  by_cases hneg : i < 0
  · have hdata : (intRepr i).data = '-' :: (natRepr i.natAbs).data := by
      unfold intRepr
      rw [if_pos hneg, String.data_append]
      rfl
    unfold parseYamlInt
    rw [hdata]
    simp [parseNatDigits_natRepr i.natAbs]
    rw [abs_of_neg hneg]
    ring
  · have habs : (i.natAbs : Int) = i := Int.natAbs_of_nonneg (not_lt.mp hneg)
    have : intRepr i = natRepr i.natAbs := by
      unfold intRepr
      rw [if_neg hneg]
    rw [this, parseYamlInt_natRepr]
    rw [habs]

end ConfigSchemaValidator

namespace ConfigSchemaValidator

/-! Safety of the safe constructor -/

theorem constructScalar_builtin (tag v : String) (x : PyValue)
    (h : constructScalar tag v = .ok x) : isBuiltin x = true := by
  unfold constructScalar at h
  split_ifs at h with h1 h2 h3 h4 h5
  · cases h
    rfl
  · cases hb : boolValue v with
    | some b =>
      rw [hb] at h
      cases h
      rfl
    | none =>
      rw [hb] at h
      cases h
  · cases hi : parseYamlInt v with
    | some n =>
      rw [hi] at h
      cases h
      rfl
    | none =>
      rw [hi] at h
      cases h
  · cases h
    rfl
  · cases h
    rfl

mutual

theorem safeConstruct_builtin (n : YamlNode) :
    ∀ v, safeConstruct n = .ok v → isBuiltin v = true := by
  cases n with
  | scalar tag s =>
    intro v h
    exact constructScalar_builtin tag s v h
  | sequence tag items =>
    intro v h
    unfold safeConstruct at h
    split_ifs at h
    · cases hs : constructSeq items with
      | ok vs =>
        rw [hs] at h
        cases h
        simp only [isBuiltin]
        exact constructSeq_builtin items vs hs
      | error m =>
        rw [hs] at h
        cases h
  | mapping tag entries =>
    intro v h
    unfold safeConstruct at h
    split_ifs at h
    · cases hs : constructMap entries with
      | ok es =>
        rw [hs] at h
        cases h
        simp only [isBuiltin]
        exact constructMap_builtin entries es hs
      | error m =>
        rw [hs] at h
        cases h

theorem constructSeq_builtin (s : YamlNodeSeq) :
    ∀ vs, constructSeq s = .ok vs → listBuiltin vs = true := by
  cases s with
  | nil =>
    intro vs h
    cases h
    rfl
  | cons n rest =>
    intro vs h
    unfold constructSeq at h
    cases hn : safeConstruct n with
    | error m =>
      rw [hn] at h
      cases h
    | ok v =>
      rw [hn] at h
      cases hr : constructSeq rest with
      | error m =>
        rw [hr] at h
        cases h
      | ok vs2 =>
        rw [hr] at h
        cases h
        simp only [listBuiltin, Bool.and_eq_true]
        exact ⟨safeConstruct_builtin n v hn, constructSeq_builtin rest vs2 hr⟩

theorem constructMap_builtin (m : YamlNodeMap) :
    ∀ es, constructMap m = .ok es → dictBuiltin es = true := by
  cases m with
  | nil =>
    intro es h
    cases h
    rfl
  | cons k v rest =>
    intro es h
    unfold constructMap at h
    cases hk : safeConstruct k with
    | error m2 =>
      rw [hk] at h
      cases h
    | ok kv =>
      rw [hk] at h
      cases kv with
      | str ks =>
        cases hv : safeConstruct v with
        | error m2 =>
          rw [hv] at h
          cases h
        | ok vv =>
          rw [hv] at h
          cases hr : constructMap rest with
          | error m2 =>
            rw [hr] at h
            cases h
          | ok es2 =>
            rw [hr] at h
            cases h
            simp only [dictBuiltin, Bool.and_eq_true]
            exact ⟨safeConstruct_builtin v vv hv, constructMap_builtin rest es2 hr⟩
      | null => cases h
      | bool b => cases h
      | int n2 => cases h
      | float r => cases h
      | list l => cases h
      | dict d => cases h
      | object c a => cases h

end

end ConfigSchemaValidator

namespace ConfigSchemaValidator

theorem constructScalar_custom (tag v : String)
    (h : isCoreTag tag = false) :
    constructScalar tag v = .error (constructorErrMsg tag) := by
  have h1 : tag ≠ yamlNullTag := by
    intro he
    rw [he] at h
    exact absurd h (by decide)
  have h2 : tag ≠ yamlBoolTag := by
    intro he
    rw [he] at h
    exact absurd h (by decide)
  have h3 : tag ≠ yamlIntTag := by
    intro he
    rw [he] at h
    exact absurd h (by decide)
  have h4 : tag ≠ yamlFloatTag := by
    intro he
    rw [he] at h
    exact absurd h (by decide)
  have h5 : tag ≠ yamlStrTag := by
    intro he
    rw [he] at h
    exact absurd h (by decide)
  unfold constructScalar
  rw [if_neg h1, if_neg h2, if_neg h3, if_neg h4, if_neg h5]

mutual

theorem customTag_errors (n : YamlNode) :
    hasCustomTag n = true → ∃ m, safeConstruct n = .error m := by
  cases n with
  | scalar tag v =>
    intro h
    simp only [hasCustomTag, Bool.not_eq_true'] at h
    exact ⟨constructorErrMsg tag, constructScalar_custom tag v h⟩
  | sequence tag items =>
    intro h
    simp only [hasCustomTag, Bool.or_eq_true, Bool.not_eq_true'] at h
    by_cases htag : tag = yamlSeqTag
    · subst htag
      have hseq : seqHasCustomTag items = true := by
        rcases h with h | h
        · exact absurd h (by decide)
        · exact h
      obtain ⟨m, hm⟩ := seqCustomTag_errors items hseq
      refine ⟨m, ?_⟩
      unfold safeConstruct
      rw [if_pos rfl, hm]
    · refine ⟨constructorErrMsg tag, ?_⟩
      unfold safeConstruct
      rw [if_neg htag]
  | mapping tag entries =>
    intro h
    simp only [hasCustomTag, Bool.or_eq_true, Bool.not_eq_true'] at h
    by_cases htag : tag = yamlMapTag
    · subst htag
      have hmap : mapHasCustomTag entries = true := by
        rcases h with h | h
        · exact absurd h (by decide)
        · exact h
      obtain ⟨m, hm⟩ := mapCustomTag_errors entries hmap
      refine ⟨m, ?_⟩
      unfold safeConstruct
      rw [if_pos rfl, hm]
    · refine ⟨constructorErrMsg tag, ?_⟩
      unfold safeConstruct
      rw [if_neg htag]

theorem seqCustomTag_errors (s : YamlNodeSeq) :
    seqHasCustomTag s = true → ∃ m, constructSeq s = .error m := by
  cases s with
  | nil =>
    intro h
    simp [seqHasCustomTag] at h
  | cons n rest =>
    intro h
    simp only [seqHasCustomTag, Bool.or_eq_true] at h
    rcases h with h | h
    · obtain ⟨m, hm⟩ := customTag_errors n h
      refine ⟨m, ?_⟩
      unfold constructSeq
      rw [hm]
    · cases hn : safeConstruct n with
      | error m =>
        refine ⟨m, ?_⟩
        unfold constructSeq
        rw [hn]
      | ok v =>
        obtain ⟨m, hm⟩ := seqCustomTag_errors rest h
        refine ⟨m, ?_⟩
        unfold constructSeq
        rw [hn, hm]

theorem mapCustomTag_errors (mp : YamlNodeMap) :
    mapHasCustomTag mp = true → ∃ m, constructMap mp = .error m := by
  cases mp with
  | nil =>
    intro h
    simp [mapHasCustomTag] at h
  | cons k v rest =>
    intro h
    simp only [mapHasCustomTag, Bool.or_eq_true] at h
    cases hk : safeConstruct k with
    | error m =>
      refine ⟨m, ?_⟩
      unfold constructMap
      rw [hk]
    | ok kv =>
      have hknc : hasCustomTag k = false := by
        by_cases hc : hasCustomTag k = true
        · obtain ⟨m, hm⟩ := customTag_errors k hc
          rw [hm] at hk
          cases hk
        · simp at hc
          exact hc
      cases kv with
      | str ks =>
        cases hv : safeConstruct v with
        | error m =>
          refine ⟨m, ?_⟩
          unfold constructMap
          rw [hk, hv]
        | ok vv =>
          have hvnc : hasCustomTag v = false := by
            by_cases hc : hasCustomTag v = true
            · obtain ⟨m, hm⟩ := customTag_errors v hc
              rw [hm] at hv
              cases hv
            · simp at hc
              exact hc
          have hrest : mapHasCustomTag rest = true := by
            rcases h with (h | h) | h
            · exact absurd h (by simp [hknc])
            · exact absurd h (by simp [hvnc])
            · exact h
          obtain ⟨m, hm⟩ := mapCustomTag_errors rest hrest
          refine ⟨m, ?_⟩
          unfold constructMap
          rw [hk, hv, hm]
      | null =>
        exact ⟨("non-string mapping key"), by unfold constructMap; rw [hk]⟩
      | bool b =>
        exact ⟨("non-string mapping key"), by unfold constructMap; rw [hk]⟩
      | int n2 =>
        exact ⟨("non-string mapping key"), by unfold constructMap; rw [hk]⟩
      | float r =>
        exact ⟨("non-string mapping key"), by unfold constructMap; rw [hk]⟩
      | list l =>
        exact ⟨("non-string mapping key"), by unfold constructMap; rw [hk]⟩
      | dict d =>
        exact ⟨("non-string mapping key"), by unfold constructMap; rw [hk]⟩
      | object c a =>
        exact ⟨("non-string mapping key"), by unfold constructMap; rw [hk]⟩

end

end ConfigSchemaValidator

namespace ConfigSchemaValidator

/-! Round trip: the canonical YAML presentation of a builtin value
safe-loads back to the structurally equal value -/

theorem constructScalar_strTag (k : String) :
    constructScalar yamlStrTag k = .ok (.str k) := by
  unfold constructScalar
  rw [if_neg (by decide), if_neg (by decide), if_neg (by decide),
    if_neg (by decide), if_pos rfl]

mutual

theorem construct_toYamlNode (t : PyValue) :
    isBuiltin t = true → safeConstruct (toYamlNode t) = .ok t := by
  cases t with
  | null =>
    intro _
    rfl
  | bool b =>
    intro _
    cases b <;> rfl
  | int n =>
    intro _
    show constructScalar yamlIntTag (intRepr n) = .ok (.int n)
    unfold constructScalar
    rw [if_neg (by decide), if_neg (by decide), if_pos rfl, parseYamlInt_intRepr]
  | float r =>
    intro _
    rfl
  | str s =>
    intro _
    rfl
  | list items =>
    intro hb
    simp only [isBuiltin] at hb
    show safeConstruct (.sequence yamlSeqTag (toYamlSeq items)) = .ok (.list items)
    unfold safeConstruct
    rw [if_pos rfl, construct_toYamlSeq items hb]
  | dict entries =>
    intro hb
    simp only [isBuiltin] at hb
    show safeConstruct (.mapping yamlMapTag (toYamlMap entries)) = .ok (.dict entries)
    unfold safeConstruct
    rw [if_pos rfl, construct_toYamlMap entries hb]
  | object cls args =>
    intro hb
    simp [isBuiltin] at hb

theorem construct_toYamlSeq (l : PyValueList) :
    listBuiltin l = true → constructSeq (toYamlSeq l) = .ok l := by
  cases l with
  | nil =>
    intro _
    rfl
  | cons v rest =>
    intro hb
    simp only [listBuiltin, Bool.and_eq_true] at hb
    obtain ⟨h1, h2⟩ := hb
    show constructSeq (.cons (toYamlNode v) (toYamlSeq rest)) = .ok (.cons v rest)
    unfold constructSeq
    rw [construct_toYamlNode v h1, construct_toYamlSeq rest h2]

theorem construct_toYamlMap (mp : PyValueDict) :
    dictBuiltin mp = true → constructMap (toYamlMap mp) = .ok mp := by
  cases mp with
  | nil =>
    intro _
    rfl
  | cons k v rest =>
    intro hb
    simp only [dictBuiltin, Bool.and_eq_true] at hb
    obtain ⟨h1, h2⟩ := hb
    show constructMap
        (.cons (.scalar yamlStrTag k) (toYamlNode v) (toYamlMap rest))
      = .ok (.cons k v rest)
    unfold constructMap
    have hk : safeConstruct (.scalar yamlStrTag k) = .ok (.str k) :=
      constructScalar_strTag k
    rw [hk, construct_toYamlNode v h1, construct_toYamlMap rest h2]

end

end ConfigSchemaValidator

namespace ConfigSchemaValidator

/-! Scanning lemmas for `splitext` -/

theorem takeWhile_append_of_all {α : Type} (p : α → Bool) (l r : List α)
    (h : ∀ c ∈ l, p c = true) :
    (l ++ r).takeWhile p = l ++ r.takeWhile p := by
  induction l with
  | nil => simp
  | cons a as ih =>
    have ih2 := ih fun c hc => h c (List.mem_cons_of_mem a hc)
    simp [h a (List.mem_cons_self a as), ih2]

theorem dropWhile_append_of_all {α : Type} (p : α → Bool) (l r : List α)
    (h : ∀ c ∈ l, p c = true) :
    (l ++ r).dropWhile p = r.dropWhile p := by
  induction l with
  | nil => simp
  | cons a as ih =>
    have ih2 := ih fun c hc => h c (List.mem_cons_of_mem a hc)
    simp [h a (List.mem_cons_self a as), ih2]

/-- A path whose basename is a lone dot followed by a dot-free,
slash-free name has no extension under `posixpath.splitext`: the only
dot of the basename is its leading dot, which never starts an
extension. -/
theorem splitext_leading_dot (d name : String)
    (hname : ∀ c ∈ name.data, c ≠ '.' ∧ c ≠ '/') :
    splitext (d ++ ("/.") ++ name) = (d ++ ("/.") ++ name, ("")) := by
  have hdata : (d ++ ("/.") ++ name).data.reverse
      = (name.data.reverse ++ ['.']) ++ ('/' :: d.data.reverse) := by
    rw [String.data_append, String.data_append]
    have hsl : ("/.").data = ['/', '.'] := rfl
    rw [hsl]
    simp [List.reverse_append, List.append_assoc]
  have hall1 : ∀ c ∈ name.data.reverse ++ ['.'],
      (fun c => decide ¬(c = '/')) c = true := by
    intro c hc
    simp only [List.mem_append, List.mem_reverse, List.mem_singleton] at hc
    rcases hc with hc | hc
    · simp [(hname c hc).2]
    · subst hc
      decide
  have hall2 : ∀ c ∈ name.data.reverse,
      (fun c => decide ¬(c = '.')) c = true := by
    intro c hc
    rw [List.mem_reverse] at hc
    simp [(hname c hc).1]
  unfold splitext
  rw [hdata]
  dsimp only
  rw [takeWhile_append_of_all _ _ _ hall1]
  have hstop : ('/' :: d.data.reverse).takeWhile (fun c => decide ¬(c = '/'))
      = [] := by
    simp [List.takeWhile_cons]
  rw [hstop, List.append_nil]
  rw [dropWhile_append_of_all _ _ _ hall2]
  have hdot : (['.'] : List Char).dropWhile (fun c => decide ¬(c = '.'))
      = ['.'] := by
    simp [List.dropWhile_cons]
  rw [hdot]
  simp

end ConfigSchemaValidator

namespace ConfigSchemaValidator

/-! Which error kinds each pipeline step can produce -/

theorem determine_err_allowed (p : String) (t : Option FileType) (e : PyExc)
    (h : determine_file_type p t = .error e) :
    errAllowed .resolveTypes e = true := by
  unfold determine_file_type at h
  cases t with
  | some _ => cases h
  | none =>
    dsimp only at h
    split_ifs at h
    cases h
    rfl

theorem load_json_err_allowed (fs : String → Option String) (p : String)
    (e : PyExc) (h : load_json fs p = .error e) :
    errAllowed .loadConfig e = true ∧ errAllowed .loadSchema e = true := by
  unfold load_json at h
  split at h
  · cases h
    exact ⟨rfl, rfl⟩
  · split at h
    · cases h
      exact ⟨rfl, rfl⟩
    · cases h

theorem load_yaml_err_allowed (fs : String → Option String)
    (compose : String → ComposeResult) (p : String) (e : PyExc)
    (h : load_yaml fs compose p = .error e) :
    errAllowed .loadConfig e = true ∧ errAllowed .loadSchema e = true := by
  unfold load_yaml at h
  split at h
  · cases h
    exact ⟨rfl, rfl⟩
  · split at h
    · cases h
      exact ⟨rfl, rfl⟩
    · cases h
      exact ⟨rfl, rfl⟩
    · cases h
    · split at h
      · cases h
        exact ⟨rfl, rfl⟩
      · cases h

theorem loadAs_err_allowed (t : FileType) (fs : String → Option String)
    (compose : String → ComposeResult) (p : String) (e : PyExc)
    (h : loadAs t fs compose p = .error e) :
    errAllowed .loadConfig e = true ∧ errAllowed .loadSchema e = true := by
  cases t with
  | json => exact load_json_err_allowed fs p e h
  | yaml => exact load_yaml_err_allowed fs compose p e h

theorem validate_err_allowed (jv : PyValue → PyValue → ValidateOutcome)
    (c s : PyValue) (e : PyExc) (h : validate_config jv c s = .error e) :
    errAllowed .validate e = true := by
  unfold validate_config at h
  cases hv : jv c s with
  | valid =>
    rw [hv] at h
    cases h
  | invalid m =>
    rw [hv] at h
    cases h
    rfl
  | raised m =>
    rw [hv] at h
    cases h
    rfl

end ConfigSchemaValidator

namespace ConfigSchemaValidator

/-! Claim theorems -/

/-- C1: the YAML branch of the Document Loader parses using only the safe
subset of YAML: every value a successful `load_yaml` returns is built
from builtin scalar / sequence / mapping constructors only (never an
arbitrary instantiated object), and a document carrying a custom /
unsafe type tag is never constructed as that type — the safe constructor
fails on it. -/
theorem yaml_branch_loads_only_builtin :
    (∀ (fs : String → Option String) (compose : String → ComposeResult)
        (path : String) (v : PyValue),
        load_yaml fs compose path = .ok v → isBuiltin v = true) ∧
    (∀ n : YamlNode, hasCustomTag n = true →
        ∃ m, safeConstruct n = .error m) := by
  constructor
  · intro fs compose path v h
    unfold load_yaml at h
    split at h
    · cases h
    · split at h
      · cases h
      · cases h
      · cases h
        rfl
      · rename_i n heq
        cases hs : safeConstruct n with
        | error m =>
          rw [hs] at h
          cases h
        | ok w =>
          rw [hs] at h
          injection h with hwv
          rw [← hwv]
          exact safeConstruct_builtin n w hs
  · exact fun n h => customTag_errors n h

theorem yaml_branch_loads_only_builtin_witness :
    isBuiltin (PyValue.dict (.cons ("a") (.int 1) .nil)) = true ∧
      ∃ m, safeConstruct (YamlNode.scalar ("!mycls") ("x")) = .error m := by
  constructor
  · exact yaml_branch_loads_only_builtin.1
      (fun _ => some ("a: 1"))
      (fun _ => .composed (some (.mapping yamlMapTag
        (.cons (.scalar yamlStrTag ("a")) (.scalar yamlIntTag ("1")) .nil))))
      ("config.yaml")
      (PyValue.dict (.cons ("a") (.int 1) .nil))
      rfl
  · exact yaml_branch_loads_only_builtin.2 (YamlNode.scalar ("!mycls") ("x"))
      (by decide)

/-- C3: a present declared type is returned unconditionally by the Type
Resolver — the explicit `--config_type`/`--schema_type` override always
wins over extension inference, whatever the path's extension is. -/
theorem declared_type_always_wins (p : String) (t : FileType) :
    determine_file_type p (some t) = .ok t := rfl

/-- C8: the Schema Validator leaves both input trees unchanged — in the
explicit-state reading of `validate_config`, the config tree and the
schema tree after the call are structurally equal to the trees before
it, whether the call returns or fails. -/
theorem validate_preserves_input_trees
    (jv : PyValue → PyValue → ValidateOutcome) (c s : PyValue) :
    (validate_config_state jv c s).2.1 = c ∧
      (validate_config_state jv c s).2.2 = s :=
  ⟨rfl, rfl⟩

/-- C7: a well-formed JSON document and a well-formed YAML document with
the same logical content — a builtin tree `t` that the JSON text parses
to, and whose canonical YAML presentation the YAML text composes to —
load to structurally equal DocumentTrees (both are exactly `t`, in the
one shared `PyValue` type both loaders return, so the Schema Validator
cannot depend on which loader produced its inputs). -/
theorem equivalent_documents_load_equal
    (fs : String → Option String) (compose : String → ComposeResult)
    (jpath ypath jtext ytext : String) (t : PyValue)
    (hb : isBuiltin t = true)
    (hjf : fs jpath = some jtext) (hjp : jsonParse jtext = .ok t)
    (hyf : fs ypath = some ytext)
    (hyc : compose ytext = .composed (some (toYamlNode t))) :
    load_json fs jpath = .ok t ∧ load_yaml fs compose ypath = .ok t := by
  constructor
  · unfold load_json
    simp only [hjf, hjp]
  · unfold load_yaml
    simp only [hyf, hyc, construct_toYamlNode t hb]

theorem equivalent_documents_load_equal_witness :
    load_json
        (fun p => if p = ("c.json") then some ("\x7b\"a\": 1\x7d")
         else some ("a: 1"))
        ("c.json")
      = .ok (.dict (.cons ("a") (.int 1) .nil)) ∧
    load_yaml
        (fun p => if p = ("c.json") then some ("\x7b\"a\": 1\x7d")
         else some ("a: 1"))
        (fun _ => .composed (some (toYamlNode
          (.dict (.cons ("a") (.int 1) .nil)))))
        ("c.yaml")
      = .ok (.dict (.cons ("a") (.int 1) .nil)) :=
  equivalent_documents_load_equal
    (fun p => if p = ("c.json") then some ("\x7b\"a\": 1\x7d") else some ("a: 1"))
    (fun _ => .composed (some (toYamlNode (.dict (.cons ("a") (.int 1) .nil)))))
    ("c.json") ("c.yaml") ("\x7b\"a\": 1\x7d") ("a: 1")
    (.dict (.cons ("a") (.int 1) .nil))
    rfl rfl rfl rfl rfl

end ConfigSchemaValidator

namespace ConfigSchemaValidator

/-- C5 counterexample: a YAML file that opens fine and parses fine but
carries an unsafe custom tag makes `load_yaml` fail with the safe
constructor's error — which is neither `NotFound` nor a `ParseError`,
and no DocumentTree is returned; this refutes "in all other cases it
returns the parsed DocumentTree". -/
theorem loader_contract_cex :
    load_yaml
        (fun p => if p = ("doc.yaml") then some ("!mycls x") else none)
        (fun s => if s = ("!mycls x")
          then .composed (some (.scalar ("!mycls") ("x")))
          else .parseErr ("unreachable"))
        ("doc.yaml")
      = .error (.yamlConstructorError (constructorErrMsg ("!mycls"))) := rfl

/-- C5 (amended): the Document Loader fails with `NotFound{path}`
whenever the file cannot be opened and with `ParseError` tagged with the
corresponding format on malformed input — for the YAML branch both
lexical/scanning and structural/parsing errors; a YAML document that
parses but carries an unsupported/unsafe tag fails with the safe
constructor's error instead (neither `NotFound` nor `ParseError`); in
all remaining cases the parsed DocumentTree is returned. -/
theorem loader_error_contract (fs : String → Option String)
    (compose : String → ComposeResult) (path : String) :
    (fs path = none →
      load_json fs path = .error (.fileNotFound path) ∧
        load_yaml fs compose path = .error (.fileNotFound path)) ∧
    (∀ text, fs path = some text →
      (∀ m, jsonParse text = .error m →
        load_json fs path = .error (.jsonDecodeError m)) ∧
      (∀ v, jsonParse text = .ok v → load_json fs path = .ok v) ∧
      (∀ m, compose text = .scanErr m →
        load_yaml fs compose path = .error (.yamlScannerError m)) ∧
      (∀ m, compose text = .parseErr m →
        load_yaml fs compose path = .error (.yamlParserError m)) ∧
      (compose text = .composed none → load_yaml fs compose path = .ok .null) ∧
      (∀ n m, compose text = .composed (some n) → safeConstruct n = .error m →
        load_yaml fs compose path = .error (.yamlConstructorError m)) ∧
      (∀ n v, compose text = .composed (some n) → safeConstruct n = .ok v →
        load_yaml fs compose path = .ok v)) := by
  constructor
  · intro h
    constructor
    · unfold load_json
      simp only [h]
    · unfold load_yaml
      simp only [h]
  · intro text hf
    refine ⟨?_, ?_, ?_, ?_, ?_, ?_, ?_⟩
    · intro m hp
      unfold load_json
      simp only [hf, hp]
    · intro v hp
      unfold load_json
      simp only [hf, hp]
    · intro m hc
      unfold load_yaml
      simp only [hf, hc]
    · intro m hc
      unfold load_yaml
      simp only [hf, hc]
    · intro hc
      unfold load_yaml
      simp only [hf, hc]
    · intro n m hc hs
      unfold load_yaml
      simp only [hf, hc, hs]
    · intro n v hc hs
      unfold load_yaml
      simp only [hf, hc, hs]

theorem loader_error_contract_witness :
    load_json (fun _ => none) ("missing.json")
      = .error (.fileNotFound ("missing.json")) ∧
    load_yaml (fun _ => some ("a: [")) (fun _ => .parseErr ("bad block"))
        ("broken.yaml")
      = .error (.yamlParserError ("bad block")) := by
  constructor
  · exact ((loader_error_contract (fun _ => none) (fun _ => .composed none)
      ("missing.json")).1 rfl).1
  · exact ((loader_error_contract (fun _ => some ("a: ["))
      (fun _ => .parseErr ("bad block")) ("broken.yaml")).2
      ("a: [") rfl).2.2.2.1 ("bad block") rfl

/-- C6 counterexample: on an empty file the JSON branch does not produce
`null` or any defined empty-document value — it fails with
`json.JSONDecodeError` ("Expecting value"), refuting the claim for the
JSON branch. -/
theorem empty_json_not_value_cex :
    load_json (fun p => if p = ("empty.json") then some ("") else none)
        ("empty.json")
      = .error (.jsonDecodeError ("Expecting value")) := rfl

/-- C6 (amended): on empty input the two branches differ: the YAML
branch yields the defined empty-document value `null`, while the JSON
branch rejects the input with `ParseError{JSON}` ("Expecting value");
neither crashes — each outcome is a defined value or a defined,
catchable error. -/
theorem empty_input_outcomes :
    (∀ (fs : String → Option String) (p : String), fs p = some ("") →
      load_json fs p = .error (.jsonDecodeError ("Expecting value"))) ∧
    (∀ (fs : String → Option String) (compose : String → ComposeResult)
        (p : String), fs p = some ("") →
      compose ("") = .composed none →
      load_yaml fs compose p = .ok .null) := by
  constructor
  · intro fs p hf
    unfold load_json
    simp only [hf]
    rfl
  · intro fs compose p hf hc
    unfold load_yaml
    simp only [hf, hc]

theorem empty_input_outcomes_witness :
    load_json (fun _ => some ("")) ("e.json")
      = .error (.jsonDecodeError ("Expecting value")) ∧
    load_yaml (fun _ => some ("")) (fun _ => .composed none) ("e.yaml")
      = .ok .null := by
  constructor
  · exact empty_input_outcomes.1 (fun _ => some ("")) ("e.json") rfl
  · exact empty_input_outcomes.2 (fun _ => some ("")) (fun _ => .composed none)
      ("e.yaml") rfl rfl

end ConfigSchemaValidator

namespace ConfigSchemaValidator

/-- C2: the CLI driver exits with code 0 if and only if the
configuration is valid against the schema (both types resolve, both
documents load, the evaluator accepts), and exits with code 1 on any
failure — file not found, parse error, type-inference failure, schema
violation, or unexpected internal error. -/
theorem main_exit_code (args : Args) (fs : String → Option String)
    (compose : String → ComposeResult)
    (jv : PyValue → PyValue → ValidateOutcome) :
    ((mainRun args fs compose jv).exitCode = 0 ↔
        configurationIsValid args fs compose jv = true) ∧
    ((mainRun args fs compose jv).exitCode = 1 ↔
        configurationIsValid args fs compose jv = false) := by
  cases h1 : determine_file_type args.config_file args.config_type with
  | error e =>
    unfold mainRun configurationIsValid
    simp [h1]
  | ok ct =>
    cases h2 : determine_file_type args.schema_file args.schema_type with
    | error e =>
      unfold mainRun configurationIsValid
      simp [h1, h2]
    | ok st =>
      cases h3 : loadAs ct fs compose args.config_file with
      | error e =>
        unfold mainRun configurationIsValid
        simp [h1, h2, h3]
      | ok c =>
        cases h4 : loadAs st fs compose args.schema_file with
        | error e =>
          unfold mainRun configurationIsValid
          simp [h1, h2, h3, h4]
        | ok sv =>
          cases h5 : jv c sv with
          | valid =>
            unfold mainRun configurationIsValid validate_config
            simp [h1, h2, h3, h4, h5]
          | invalid m =>
            unfold mainRun configurationIsValid validate_config
            simp [h1, h2, h3, h4, h5]
          | raised m =>
            unfold mainRun configurationIsValid validate_config
            simp [h1, h2, h3, h4, h5]

theorem main_exit_code_witness :
    (mainRun ⟨("c.json"), ("s.json"), none, none⟩
      (fun p => if p = ("c.json") then some ("\x7b\"a\": 1\x7d") else some ("\x7b\x7d"))
      (fun _ => .composed none) (fun _ _ => .valid)).exitCode = 0 :=
  (main_exit_code ⟨("c.json"), ("s.json"), none, none⟩
    (fun p => if p = ("c.json") then some ("\x7b\"a\": 1\x7d") else some ("\x7b\x7d"))
    (fun _ => .composed none) (fun _ _ => .valid)).1.mpr rfl

/-- C9: in every run the pipeline steps ResolveTypes, LoadConfig,
LoadSchema, Validate execute in that order, each at most once (the trace
is always a prefix of the canonical step list); a failing step is the
last step in the trace, the process exits 1, and the error is of that
step's kind; without a failure all four steps ran and the process exits
0 — no step is skipped, re-entered or retried. -/
theorem driver_state_machine (args : Args) (fs : String → Option String)
    (compose : String → ComposeResult)
    (jv : PyValue → PyValue → ValidateOutcome) :
    (∃ rest, (mainRun args fs compose jv).trace ++ rest = canonicalSteps) ∧
    (∀ st : Step, (mainRun args fs compose jv).trace.count st ≤ 1) ∧
    (∀ e, (mainRun args fs compose jv).err = some e →
      (mainRun args fs compose jv).exitCode = 1 ∧
      ∃ st, (mainRun args fs compose jv).trace.getLast? = some st ∧
        errAllowed st e = true) ∧
    ((mainRun args fs compose jv).err = none →
      (mainRun args fs compose jv).exitCode = 0 ∧
      (mainRun args fs compose jv).trace = canonicalSteps) := by
  cases h1 : determine_file_type args.config_file args.config_type with
  | error e0 =>
    unfold mainRun
    simp only [h1]
    refine ⟨⟨[.loadConfig, .loadSchema, .validate], rfl⟩, ?_, ?_, ?_⟩
    · intro st
      cases st <;> decide
    · intro e he
      cases he
      exact ⟨by trivial, ⟨.resolveTypes, by trivial, determine_err_allowed _ _ _ h1⟩⟩
    · intro he
      cases he
  | ok ct =>
    cases h2 : determine_file_type args.schema_file args.schema_type with
    | error e0 =>
      unfold mainRun
      simp only [h1, h2]
      refine ⟨⟨[.loadConfig, .loadSchema, .validate], rfl⟩, ?_, ?_, ?_⟩
      · intro st
        cases st <;> decide
      · intro e he
        cases he
        exact ⟨by trivial, ⟨.resolveTypes, by trivial, determine_err_allowed _ _ _ h2⟩⟩
      · intro he
        cases he
    | ok st =>
      cases h3 : loadAs ct fs compose args.config_file with
      | error e0 =>
        unfold mainRun
        simp only [h1, h2, h3]
        refine ⟨⟨[.loadSchema, .validate], rfl⟩, ?_, ?_, ?_⟩
        · intro s2
          cases s2 <;> decide
        · intro e he
          cases he
          exact ⟨by trivial, ⟨.loadConfig, by trivial,
            (loadAs_err_allowed _ _ _ _ _ h3).1⟩⟩
        · intro he
          cases he
      | ok c =>
        cases h4 : loadAs st fs compose args.schema_file with
        | error e0 =>
          unfold mainRun
          simp only [h1, h2, h3, h4]
          refine ⟨⟨[.validate], rfl⟩, ?_, ?_, ?_⟩
          · intro s2
            cases s2 <;> decide
          · intro e he
            cases he
            exact ⟨by trivial, ⟨.loadSchema, by trivial,
              (loadAs_err_allowed _ _ _ _ _ h4).2⟩⟩
          · intro he
            cases he
        | ok sv =>
          cases h5 : validate_config jv c sv with
          | error e0 =>
            unfold mainRun
            simp only [h1, h2, h3, h4, h5]
            refine ⟨⟨[], List.append_nil _⟩, ?_, ?_, ?_⟩
            · intro s2
              cases s2 <;> decide
            · intro e he
              cases he
              exact ⟨by trivial, ⟨.validate, by trivial,
                validate_err_allowed _ _ _ _ h5⟩⟩
            · intro he
              cases he
          | ok b =>
            unfold mainRun
            simp only [h1, h2, h3, h4, h5]
            refine ⟨⟨[], List.append_nil _⟩, ?_, ?_, ?_⟩
            · intro s2
              cases s2 <;> decide
            · intro e he
              cases he
            · intro he
              exact ⟨by trivial, by trivial⟩

theorem driver_state_machine_witness :
    (mainRun ⟨("conf.txt"), ("s.json"), none, none⟩ (fun _ => none)
        (fun _ => .composed none) (fun _ _ => .valid)).exitCode = 1 ∧
    ∃ st, (mainRun ⟨("conf.txt"), ("s.json"), none, none⟩ (fun _ => none)
        (fun _ => .composed none) (fun _ _ => .valid)).trace.getLast?
        = some st ∧
      errAllowed st (.valueError (unknownTypeMsg ("conf.txt"))) = true :=
  (driver_state_machine ⟨("conf.txt"), ("s.json"), none, none⟩ (fun _ => none)
    (fun _ => .composed none) (fun _ _ => .valid)).2.2.1
    (.valueError (unknownTypeMsg ("conf.txt"))) rfl

end ConfigSchemaValidator

namespace ConfigSchemaValidator

/-- C4: with no declared override the Type Resolver maps extension
`.json` to JSON and `.yaml`/`.yml` to YAML, comparing the extension
lowercased (hence case-insensitively); any other extension — including
none — fails with the `ValueError` whose message carries the offending
path (the `UnknownFileType` failure, whose message also suggests the
override flags). -/
theorem extension_inference (p : String) :
    (determine_file_type p none = .ok .json ↔
        strLower (splitext p).2 = (".json")) ∧
    (determine_file_type p none = .ok .yaml ↔
        (strLower (splitext p).2 = (".yaml") ∨
          strLower (splitext p).2 = (".yml"))) ∧
    (strLower (splitext p).2 ≠ (".json") →
      strLower (splitext p).2 ≠ (".yaml") →
      strLower (splitext p).2 ≠ (".yml") →
      determine_file_type p none
        = .error (.valueError (unknownTypeMsg p))) ∧
    (∃ a b : String, unknownTypeMsg p = a ++ p ++ b) := by
  have hmsg : ∃ a b : String, unknownTypeMsg p = a ++ p ++ b := ⟨_, _, rfl⟩
  unfold determine_file_type
  dsimp only
  split_ifs with hj hy
  · refine ⟨?_, ?_, ?_, hmsg⟩
    · simp [hj]
    · constructor
      · intro h
        exact absurd h (by simp)
      · intro h
        rcases h with h | h <;> rw [hj] at h <;> exact absurd h (by decide)
    · intro h1 _ _
      exact absurd hj h1
  · refine ⟨?_, ?_, ?_, hmsg⟩
    · constructor
      · intro h
        exact absurd h (by simp)
      · intro h
        exact absurd h hj
    · simp [hy]
    · intro _ h2 h3
      rcases hy with hy | hy
      · exact absurd hy h2
      · exact absurd hy h3
  · rw [not_or] at hy
    obtain ⟨hy1, hy2⟩ := hy
    refine ⟨?_, ?_, ?_, hmsg⟩
    · constructor
      · intro h
        exact absurd h (by simp)
      · intro h
        exact absurd h hj
    · constructor
      · intro h
        exact absurd h (by simp)
      · intro h
        rcases h with h | h
        · exact absurd h hy1
        · exact absurd h hy2
    · intro _ _ _
      rfl

theorem extension_inference_witness :
    determine_file_type ("A.JSON") none = .ok .json ∧
    determine_file_type ("x.YML") none = .ok .yaml ∧
    determine_file_type ("conf.txt") none
      = .error (.valueError (unknownTypeMsg ("conf.txt"))) := by
  refine ⟨?_, ?_, ?_⟩
  · exact (extension_inference ("A.JSON")).1.mpr (by decide)
  · exact (extension_inference ("x.YML")).2.1.mpr (Or.inr (by decide))
  · exact (extension_inference ("conf.txt")).2.2.1 (by decide) (by decide)
      (by decide)

/-- C10: a path whose basename is just a leading dot followed by a
supported format name (".json", ".yaml", ".yml") and no other dot has,
per `os.path.splitext`, an empty extension, so with no declared override
the Type Resolver fails with the unknown-file-type `ValueError` instead
of inferring the format — both for the bare dotfile name and under any
directory prefix. -/
theorem dotfile_unknown_file_type (d fmtName : String)
    (hfmt : fmtName = ("json") ∨ fmtName = ("yaml") ∨ fmtName = ("yml")) :
    determine_file_type ((".") ++ fmtName) none
      = .error (.valueError (unknownTypeMsg ((".") ++ fmtName))) ∧
    determine_file_type (d ++ ("/.") ++ fmtName) none
      = .error (.valueError (unknownTypeMsg (d ++ ("/.") ++ fmtName))) := by
  constructor
  · rcases hfmt with h | h | h <;> subst h <;> rfl
  · have hname : ∀ c ∈ fmtName.data, c ≠ '.' ∧ c ≠ '/' := by
      rcases hfmt with h | h | h <;> subst h <;> decide
    have hsp := splitext_leading_dot d fmtName hname
    unfold determine_file_type
    dsimp only
    rw [hsp]
    dsimp only
    rw [if_neg (by decide), if_neg (by decide)]

theorem dotfile_unknown_file_type_witness :
    determine_file_type ((".") ++ ("json")) none
      = .error (.valueError (unknownTypeMsg ((".") ++ ("json")))) ∧
    determine_file_type (("/etc") ++ ("/.") ++ ("json")) none
      = .error (.valueError (unknownTypeMsg (("/etc") ++ ("/.") ++ ("json")))) :=
  dotfile_unknown_file_type ("/etc") ("json") (Or.inl rfl)

end ConfigSchemaValidator
